import Mathlib

/-!
Shallow embedding of `ado_migration.py` (class `ADOMigrationTool`), the Azure
DevOps migration orchestrator.  Network I/O is modelled by oracle functions
passed as parameters (they describe the responses the remote endpoints would
give); every decision, payload construction and control-flow branch of the
Python code is embedded faithfully.  Field values are modelled as optional
strings: `none` plays the role of Python's `None`, `some s` a concrete value.
-/

namespace AdoMigration

/-- A JSON-patch operation as built by `create_work_item` and
`update_work_item_relations`: `{"op": ..., "path": ..., "value": ...}`. -/
structure Op where
  op : String
  path : String
  value : String
  deriving Repr, DecidableEq

/-- The exclusion list of `create_work_item` (`exclude_fields`, lines 313-317). -/
def exclude_fields : List String :=
  ["System.Id", "System.Rev", "System.CreatedBy", "System.CreatedDate",
   "System.ChangedBy", "System.ChangedDate", "System.CommentCount",
   "System.TeamProject", "System.AreaPath", "System.IterationPath"]

/-- A work item's `fields` dictionary: association list of
field name ↦ value, where `none` models a JSON `null` (Python `None`).
Python dicts have no duplicate keys; theorems that need this carry a
`Nodup` hypothesis on the keys. -/
abbrev Fields := List (String × Option String)

/-- Python `fields.get(key, default)`. -/
def dictGet (fields : Fields) (key : String) (dflt : Option String) : Option String :=
  match fields.lookup key with
  | some v => v
  | none => dflt

/-- Python `x or ""` applied to an optional string: `None` and the empty
string both collapse to `""`. -/
def orEmpty : Option String → String
  | none => ""
  | some s => s

/-- The migration notice prepended to the description (line 329). -/
def migration_notice (source_org source_project : String) : String :=
  "<p><em>Migrated from " ++ source_org ++ "/" ++ source_project ++ "</em></p>"

/-- The generic field loop of `create_work_item` (lines 319-325): one
`add` operation per field that is not excluded and not `None`. -/
def fieldLoopOps (fields : Fields) : List Op :=
  fields.filterMap fun fv =>
    if fv.1 ∉ exclude_fields then
      match fv.2 with
      | some v => some ⟨"add", "/fields/" ++ fv.1, v⟩
      | none => none
    else none

/-- The full patch payload built by `create_work_item` (lines 310-347):
the generic field loop, then the provenance-prefixed description, then
area path and iteration path forced to the target project. -/
def create_work_item_ops (fields : Fields) (source_org source_project target_project : String) :
    List Op :=
  fieldLoopOps fields ++
    [⟨"add", "/fields/System.Description",
      migration_notice source_org source_project ++
        orEmpty (dictGet fields "System.Description" (some ""))⟩,
     ⟨"add", "/fields/System.AreaPath", target_project⟩,
     ⟨"add", "/fields/System.IterationPath", target_project⟩]

/-! ## Work item relations (`update_work_item_relations`, lines 361-387) -/

/-- A source work item relation `{rel, url}`; `url = none` models the
`"url"` key being absent from the relation object. -/
structure Relation where
  rel : String
  url : Option String
  deriving Repr, DecidableEq

/-- Python's substring test `needle in hay`. -/
def pyContains (needle hay : String) : Bool := decide (needle.data <:+: hay.data)

/-- Python's `int(s)` for the id segment: the numeric value of a
non-empty all-digit string, `none` modelling `int` raising `ValueError`
otherwise. -/
def pyInt (s : String) : Option Nat :=
  if s.data ≠ [] ∧ s.data.all Char.isDigit then
    some (s.data.foldl (fun acc c => acc * 10 + (c.toNat - 48)) 0)
  else none

/-- Python `s.split(sep)` for a one-character separator, on the
character list. -/
def splitOnChar (c : Char) : List Char → List (List Char)
  | [] => [[]]
  | ch :: rest =>
    if ch = c then [] :: splitOnChar c rest
    else
      match splitOnChar c rest with
      | [] => [[ch]]
      | s :: ss => (ch :: s) :: ss

/-- Python `url.split("/")[-1]`: the last segment of the URL. -/
def lastSegment (u : String) : String := String.mk ((splitOnChar '/' u.data).getLastD [])

/-- The `{rel, url}` object placed in a relation patch operation's value. -/
structure RelValue where
  rel : String
  url : String
  deriving Repr, DecidableEq

/-- A relation patch operation (lines 373-380). -/
structure RelOp where
  op : String
  path : String
  value : RelValue
  deriving Repr, DecidableEq

/-- The Identity Map `work_item_map` (source work item id ↦ target id). -/
abbrev WorkItemMap := List (Nat × Nat)

/-- The target-side URL rebuilt for a translated relation (line 378). -/
def target_rel_url (target_org : String) (target_id : Nat) : String :=
  "https://dev.azure.com/" ++ target_org ++ "/_apis/wit/workItems/" ++ toString target_id

/-- The patch operations built by `update_work_item_relations`
(lines 365-380): one relation-append `add` operation per relation whose URL
is a work item URL with a source id found in the Identity Map; relations
with an unmapped id, no `url` key, or a non-work-item URL contribute
nothing.  `none` models the unhandled `ValueError` from `int(...)`
escaping the loop. -/
def update_work_item_relations_ops (m : WorkItemMap) (target_org : String) :
    List Relation → Option (List RelOp)
  | [] => some []
  | r :: rs =>
    match r.url with
    | none => update_work_item_relations_ops m target_org rs
    | some u =>
      if pyContains "/workitems/" u then
        match pyInt (lastSegment u) with
        | none => none
        | some source_id =>
          match m.lookup source_id with
          | some target_id =>
            (update_work_item_relations_ops m target_org rs).map
              (fun ops => ⟨"add", "/relations/-", ⟨r.rel, target_rel_url target_org target_id⟩⟩ :: ops)
          | none => update_work_item_relations_ops m target_org rs
      else update_work_item_relations_ops m target_org rs

/-- The translation a single relation receives when every `int` parse
succeeds: `some` an operation when it resolves through the Identity Map,
`none` when it is dropped. -/
def resolvedOp (m : WorkItemMap) (target_org : String) (r : Relation) : Option RelOp :=
  match r.url with
  | none => none
  | some u =>
    if pyContains "/workitems/" u then
      match pyInt (lastSegment u) with
      | none => none
      | some source_id =>
        match m.lookup source_id with
        | some target_id =>
          some ⟨"add", "/relations/-", ⟨r.rel, target_rel_url target_org target_id⟩⟩
        | none => none
    else none

/-! ## Work item sync (`migrate_work_items`, lines 464-482) -/

/-- A source work item: native id plus its `fields` dictionary. -/
structure WorkItem where
  id : Nat
  fields : Fields
  deriving Repr, DecidableEq

/-- Phase 1 (lines 470-475): create every work item; on success record
`source id ↦ target id` in the Identity Map.  `createResult` is the
oracle for `create_work_item`'s outcome (`none` = creation failed). -/
def phase1_map (items : List WorkItem) (createResult : WorkItem → Option Nat) : WorkItemMap :=
  items.filterMap fun wi => (createResult wi).map fun tid => (wi.id, tid)

/-- Phase 2 (lines 477-482): for every source item present in the
Identity Map, fetch its source relations and build the patch for its
target counterpart. -/
def phase2_patches (items : List WorkItem) (m : WorkItemMap)
    (relationsOf : Nat → List Relation) (target_org : String) :
    List (Nat × Option (List RelOp)) :=
  items.filterMap fun wi =>
    match m.lookup wi.id with
    | some tid => some (tid, update_work_item_relations_ops m target_org (relationsOf wi.id))
    | none => none

/-- `migrate_work_items`: phase 1 then phase 2 over the same item list. -/
def migrate_work_items (items : List WorkItem) (createResult : WorkItem → Option Nat)
    (relationsOf : Nat → List Relation) (target_org : String) :
    WorkItemMap × List (Nat × Option (List RelOp)) :=
  let m := phase1_map items createResult
  (m, phase2_patches items m relationsOf target_org)

/-! ## History transfer (`clone_repo`, lines 101-137) -/

/-- The observable side effects of `clone_repo`, in order. -/
inductive CloneEvent
  | mkdtemp
  | cloneSource
  | createRemote
  | pushTarget
  | rmtreeTempDir
  deriving Repr, DecidableEq

/-- How far the try-block of `clone_repo` gets before an exception (if
any) is raised. -/
inductive CloneOutcome
  | success
  | cloneRaises
  | pushRaises
  deriving Repr, DecidableEq

/-- The try-block (lines 111-133): the effects it performs and the value
`clone_repo` returns afterwards (`except Exception` turns any raised
exception into a `False` return, line 131-133). -/
def clone_repo_try (outcome : CloneOutcome) : List CloneEvent × Bool :=
  match outcome with
  | .success => ([.cloneSource, .createRemote, .pushTarget], true)
  | .cloneRaises => ([.cloneSource], false)
  | .pushRaises => ([.cloneSource, .createRemote, .pushTarget], false)

/-- `clone_repo`: `tempfile.mkdtemp()` first (line 108), then the
try-block, then — on every path, via `finally` (lines 134-137) —
`shutil.rmtree(temp_dir, ignore_errors=True)`. -/
def clone_repo (outcome : CloneOutcome) : List CloneEvent × Bool :=
  let tryRun := clone_repo_try outcome
  (CloneEvent.mkdtemp :: tryRun.1 ++ [CloneEvent.rmtreeTempDir], tryRun.2)

/-! ## Repository sync (`migrate_repos`, lines 389-420) -/

/-- A repository descriptor: the parts of the API object the tool reads. -/
structure Repo where
  name : String
  id : String
  remoteUrl : String
  deriving Repr, DecidableEq

/-- The local `target_repo_map` dictionary. -/
abbrev RepoMap := List (String × Repo)

/-- `{repo["name"]: repo for repo in target_repos}` (lines 395, 428),
modelled by its lookup behaviour: in a Python dict comprehension a later
entry with the same key overwrites an earlier one, so a key maps to the
last matching entry — the first one of the reversed association list. -/
def buildRepoMap (repos : List Repo) : RepoMap :=
  (repos.map fun r => (r.name, r)).reverse

/-- The requests `migrate_repos` issues against the target. -/
inductive RepoEvent
  | createRepoReq (name : String)
  | cloneRepoCall (sourceId targetId : String)
  deriving Repr, DecidableEq

/-- The loop body of `migrate_repos` (lines 397-420), threading the
local `target_repo_map` and the event trace.  The body reads the map
but contains no statement writing to it, so every branch passes `m`
through unchanged.  A failed creation (`create_repo` returning `None`)
hits `continue` (line 411); otherwise `clone_repo` runs on the found or
newly created target repository. -/
def migrate_repos_step (createResult : String → Option Repo)
    (st : RepoMap × List RepoEvent) (src : Repo) : RepoMap × List RepoEvent :=
  match st.1.lookup src.name with
  | some tgt => (st.1, st.2 ++ [.cloneRepoCall src.id tgt.id])
  | none =>
    match createResult src.name with
    | none => (st.1, st.2 ++ [.createRepoReq src.name])
    | some tgt => (st.1, st.2 ++ [.createRepoReq src.name, .cloneRepoCall src.id tgt.id])

/-- `migrate_repos` (lines 389-420): list both sides, build the
name ↦ repo map of the target, loop over the source repositories.
Returns the final state of `target_repo_map` and the request trace. -/
def migrate_repos (sourceRepos targetRepos : List Repo)
    (createResult : String → Option Repo) : RepoMap × List RepoEvent :=
  sourceRepos.foldl (migrate_repos_step createResult) (buildRepoMap targetRepos, [])

/-! ## Thread replay (`add_comments_to_pr`, lines 203-225) -/

/-- A source comment; `parentCommentId = none` models the key being
absent (Python `.get("parentCommentId", 0)` then defaults it to 0). -/
structure SrcComment where
  content : String
  parentCommentId : Option Nat
  deriving Repr, DecidableEq

/-- A source thread.  `status = none` models an absent `status` key;
`threadContext`'s outer layer models key presence and its inner layer
`null` (`none`) versus an actual context value. -/
structure SrcThread where
  comments : List SrcComment
  status : Option String
  threadContext : Option (Option String)
  deriving Repr, DecidableEq

/-- A comment as posted to the target. -/
structure PostedComment where
  content : String
  parentCommentId : Nat
  deriving Repr, DecidableEq

/-- The `thread_data` payload posted per thread. -/
structure ThreadData where
  comments : List PostedComment
  status : String
  threadContext : Option String
  deriving Repr, DecidableEq

/-- The `thread_data` built for one thread (lines 209-220): comments in
source order with `parentCommentId` defaulted to 0, `status` defaulted
to `"active"`, and `threadContext` attached exactly when the key is
present and its value non-null. -/
def buildThreadData (t : SrcThread) : ThreadData :=
  { comments := t.comments.map fun c => ⟨c.content, c.parentCommentId.getD 0⟩
    status := t.status.getD "active"
    threadContext :=
      match t.threadContext with
      | some (some ctx) => some ctx
      | _ => none }

/-- `add_comments_to_pr` (lines 203-225): post one thread payload per
source thread, in source order. -/
def add_comments_to_pr (threads : List SrcThread) : List ThreadData :=
  threads.map buildThreadData

/-! ## Pull request sync (`migrate_pull_requests`, lines 422-462) -/

/-- The detail record fetched per source pull request. -/
structure PRDetails where
  sourceRefName : String
  targetRefName : String
  title : String
  description : Option String
  status : String
  threads : List SrcThread
  deriving Repr, DecidableEq

/-- The creation payload `new_pr_data` (lines 186-192). -/
structure NewPRData where
  sourceRefName : String
  targetRefName : String
  title : String
  description : String
  status : String
  deriving Repr, DecidableEq

/-- `create_pull_request`'s payload (lines 186-192): marker-prefixed
title, provenance-prefixed description, status forced to `"active"`. -/
def create_pull_request_payload (source_org source_project : String) (pr : PRDetails) :
    NewPRData :=
  { sourceRefName := pr.sourceRefName
    targetRefName := pr.targetRefName
    title := "[MIGRATED] " ++ pr.title
    description := "Migrated from " ++ source_org ++ "/" ++ source_project ++ "\n\n" ++
      orEmpty pr.description
    status := "active" }

/-- The requests `migrate_pull_requests` issues. -/
inductive PREvent
  | skipRepo (name : String)
  | createPRReq (targetRepoId : String) (payload : NewPRData)
  | postThread (targetRepoId : String) (prId : Nat) (data : ThreadData)
  | updateStatusReq (targetRepoId : String) (prId : Nat) (status : String)
  deriving Repr, DecidableEq

/-- The per-pull-request body (lines 443-462): fetch details (a failed
fetch skips the PR), create the PR in the target (a failed creation
skips the rest), replay the threads, and issue a status update exactly
when the source status is not `"active"`.  `getDetails` and `createPR`
are the oracles for the two remote calls. -/
def process_pr (source_org source_project targetRepoId : String)
    (getDetails : Nat → Option PRDetails) (createPR : String → NewPRData → Option Nat)
    (prId : Nat) : List PREvent :=
  match getDetails prId with
  | none => []
  | some details =>
    let payload := create_pull_request_payload source_org source_project details
    match createPR targetRepoId payload with
    | none => [.createPRReq targetRepoId payload]
    | some newId =>
      .createPRReq targetRepoId payload ::
        ((add_comments_to_pr details.threads).map (.postThread targetRepoId newId) ++
          (if details.status ≠ "active" then [.updateStatusReq targetRepoId newId details.status]
           else []))

/-- `migrate_pull_requests` (lines 422-462): build the target name ↦ repo
map; every source repository whose name is absent from it is skipped
(lines 432-434) — the function contains no repository creation — and
for a present one every source pull request is processed in order. -/
def migrate_pull_requests (source_org source_project : String)
    (sourceRepos targetRepos : List Repo)
    (listPRs : String → List Nat)
    (getDetails : String → Nat → Option PRDetails)
    (createPR : String → NewPRData → Option Nat) : List PREvent :=
  let m := buildRepoMap targetRepos
  sourceRepos.flatMap fun src =>
    match m.lookup src.name with
    | none => [.skipRepo src.name]
    | some tgt =>
      (listPRs src.id).flatMap
        (process_pr source_org source_project tgt.id (getDetails src.id) createPR)

/-! ## Helper lemmas -/

/-- String concatenation cancels on the left. -/
theorem string_append_cancel_left {p a b : String} (h : p ++ a = p ++ b) : a = b := by
  apply String.ext
  have h2 : p.data ++ a.data = p.data ++ b.data := by
    simpa [String.data_append] using congrArg String.data h
  exact List.append_cancel_left h2

/-- Every operation emitted by the generic field loop carries the path
of a field that is not in the exclusion list. -/
theorem fieldLoopOps_path {fields : Fields} {op : Op} (hop : op ∈ fieldLoopOps fields) :
    ∃ g, g ∉ exclude_fields ∧ op.path = "/fields/" ++ g := by
  simp only [fieldLoopOps, List.mem_filterMap] at hop
  obtain ⟨fv, _, hfv⟩ := hop
  by_cases hex : fv.1 ∈ exclude_fields
  · simp [hex] at hfv
  · rcases hv : fv.2 with _ | v
    · simp [hex, hv] at hfv
    · simp only [hex, hv, if_neg, not_false_iff] at hfv
      exact ⟨fv.1, hex, by simp [← Option.some_inj.mp hfv]⟩

/-! ## C9: temporary storage release in `clone_repo` -/

/-- C9: on every outcome of the history transfer — success, a failed
clone, or a failure while pushing — `clone_repo` creates its temporary
directory first and removes it as its very last action, and it returns
`true` exactly on success. -/
theorem clone_repo_releases_temp_dir (outcome : CloneOutcome) :
    (clone_repo outcome).1.head? = some CloneEvent.mkdtemp ∧
    (clone_repo outcome).1.getLast? = some CloneEvent.rmtreeTempDir ∧
    ((clone_repo outcome).2 = true ↔ outcome = CloneOutcome.success) := by
  cases outcome <;> exact ⟨rfl, rfl, by decide⟩

/-! ## C7: thread replay -/

/-- C7: thread replay posts exactly one payload per source thread in
source order; within a thread the comment count, the relative order of
the comment texts, and each comment's parent id (defaulted to 0 when
absent, so top-level comments stay top-level) are preserved; thread
status is copied (defaulting to `"active"`); the thread context is
attached exactly when present and non-null in the source. -/
theorem add_comments_preserves_threads (threads : List SrcThread) (t : SrcThread) :
    (add_comments_to_pr threads).length = threads.length ∧
    add_comments_to_pr threads = threads.map buildThreadData ∧
    (buildThreadData t).comments.length = t.comments.length ∧
    (buildThreadData t).comments.map PostedComment.content =
      t.comments.map SrcComment.content ∧
    (buildThreadData t).comments.map PostedComment.parentCommentId =
      t.comments.map (fun c => c.parentCommentId.getD 0) ∧
    (buildThreadData t).status = t.status.getD "active" ∧
    (∀ ctx, (buildThreadData t).threadContext = some ctx ↔ t.threadContext = some (some ctx)) := by
  refine ⟨by simp [add_comments_to_pr], rfl, by simp [buildThreadData], ?_, ?_, rfl, ?_⟩
  · simp [buildThreadData, List.map_map, Function.comp]
  · simp [buildThreadData, List.map_map, Function.comp]
  · intro ctx
    rcases htc : t.threadContext with _ | (_ | c) <;> simp [buildThreadData, htc]

/-! ## C5: excluded system fields in `create_work_item` -/

/-- C5: the patch payload built by `create_work_item` never contains an
operation whose path targets the identity, revision, audit-metadata,
comment-count or team-project system fields, and it always contains
`add` operations setting `System.AreaPath` and `System.IterationPath`
to the target project. -/
theorem create_work_item_excludes_system_fields
    (fields : Fields) (source_org source_project target_project : String) :
    (∀ op ∈ create_work_item_ops fields source_org source_project target_project,
        op.path ∉ ["/fields/System.Id", "/fields/System.Rev", "/fields/System.CreatedBy",
          "/fields/System.CreatedDate", "/fields/System.ChangedBy", "/fields/System.ChangedDate",
          "/fields/System.CommentCount", "/fields/System.TeamProject"]) ∧
    Op.mk "add" "/fields/System.AreaPath" target_project ∈
      create_work_item_ops fields source_org source_project target_project ∧
    Op.mk "add" "/fields/System.IterationPath" target_project ∈
      create_work_item_ops fields source_org source_project target_project := by
  refine ⟨?_, ?_, ?_⟩
  · intro op hop hmem
    have hpaths : ["/fields/System.Id", "/fields/System.Rev", "/fields/System.CreatedBy",
        "/fields/System.CreatedDate", "/fields/System.ChangedBy", "/fields/System.ChangedDate",
        "/fields/System.CommentCount", "/fields/System.TeamProject"] =
        (["System.Id", "System.Rev", "System.CreatedBy", "System.CreatedDate",
          "System.ChangedBy", "System.ChangedDate", "System.CommentCount",
          "System.TeamProject"].map (fun n => "/fields/" ++ n)) := by decide
    rw [hpaths, List.mem_map] at hmem
    obtain ⟨n, hn, hpath⟩ := hmem
    simp only [create_work_item_ops, List.mem_append] at hop
    rcases hop with hop | hop
    · obtain ⟨g, hg, hgpath⟩ := fieldLoopOps_path hop
      have hng : n = g := string_append_cancel_left (hpath.trans hgpath)
      subst hng
      fin_cases hn <;> exact hg (by decide)
    · have e1 : ("/fields/" ++ "System.Description" : String) = "/fields/System.Description" := by
        decide
      have e2 : ("/fields/" ++ "System.AreaPath" : String) = "/fields/System.AreaPath" := by decide
      have e3 : ("/fields/" ++ "System.IterationPath" : String) = "/fields/System.IterationPath" := by
        decide
      simp only [List.mem_cons, List.not_mem_nil, or_false] at hop
      rcases hop with rfl | rfl | rfl
      · have hn' : n = "System.Description" :=
          string_append_cancel_left (p := "/fields/") (hpath.trans e1.symm)
        rw [hn'] at hn; exact absurd hn (by decide)
      · have hn' : n = "System.AreaPath" :=
          string_append_cancel_left (p := "/fields/") (hpath.trans e2.symm)
        rw [hn'] at hn; exact absurd hn (by decide)
      · have hn' : n = "System.IterationPath" :=
          string_append_cancel_left (p := "/fields/") (hpath.trans e3.symm)
        rw [hn'] at hn; exact absurd hn (by decide)
  · simp [create_work_item_ops]
  · simp [create_work_item_ops]

/-! ## C10: duplicated description operation -/

/-- Unfolding of the generic field loop on a cons cell. -/
theorem fieldLoopOps_cons (fv : String × Option String) (rest : Fields) :
    fieldLoopOps (fv :: rest) =
      (if fv.1 ∉ exclude_fields then
        match fv.2 with
        | some v => [Op.mk "add" ("/fields/" ++ fv.1) v]
        | none => ([] : List Op)
      else []) ++ fieldLoopOps rest := by
  simp only [fieldLoopOps, List.filterMap_cons]
  by_cases hex : fv.1 ∈ exclude_fields
  · simp [hex]
  · rcases hv : fv.2 with _ | v <;> simp [hex, hv]

/-- A field named other than `System.Description` never contributes an
operation with the description path. -/
theorem fieldLoopOps_desc_filter_of_not_mem {fields : Fields}
    (h : "System.Description" ∉ fields.map Prod.fst) :
    (fieldLoopOps fields).filter (fun op => op.path == "/fields/System.Description") = [] := by
  induction fields with
  | nil => rfl
  | cons fv rest ih =>
    simp only [List.map_cons, List.mem_cons, not_or] at h
    rw [fieldLoopOps_cons, List.filter_append, ih h.2, List.append_nil]
    by_cases hex : fv.1 ∈ exclude_fields
    · simp [hex]
    · rcases hv : fv.2 with _ | v
      · simp [hex, hv]
      · have hne : ¬("/fields/" ++ fv.1 = "/fields/System.Description") := by
          intro hcontra
          exact (Ne.symm h.1)
            (string_append_cancel_left (p := "/fields/") (hcontra.trans (by decide)))
        simp [hex, hv, hne]

/-- The operations with the description path emitted by the generic
field loop: exactly the raw copy of a present non-null
`System.Description` value, nothing otherwise. -/
theorem fieldLoopOps_desc_filter (fields : Fields) (hnd : (fields.map Prod.fst).Nodup) :
    (fieldLoopOps fields).filter (fun op => op.path == "/fields/System.Description") =
      (match fields.lookup "System.Description" with
       | some (some d) => [Op.mk "add" "/fields/System.Description" d]
       | _ => []) := by
  induction fields with
  | nil => rfl
  | cons fv rest ih =>
    simp only [List.map_cons, List.nodup_cons] at hnd
    rw [fieldLoopOps_cons, List.filter_append]
    by_cases heq : fv.1 = "System.Description"
    · have hrest : "System.Description" ∉ rest.map Prod.fst := heq ▸ hnd.1
      rw [fieldLoopOps_desc_filter_of_not_mem hrest, List.append_nil]
      have hlk : (fv :: rest).lookup "System.Description" = some fv.2 := by
        rw [List.lookup_cons]
        simp [heq]
      rw [hlk]
      have hdesc_nex : "System.Description" ∉ exclude_fields := by decide
      rcases hv : fv.2 with _ | v
      · simp [heq, hv, hdesc_nex]
      · have hpath : ("/fields/" ++ fv.1 : String) = "/fields/System.Description" := by
          rw [heq]; decide
        simp [heq, hv, hdesc_nex, hpath]
    · have hlk : (fv :: rest).lookup "System.Description" = rest.lookup "System.Description" := by
        rw [List.lookup_cons]
        have hb : ("System.Description" == fv.1) = false :=
          beq_eq_false_iff_ne.mpr (Ne.symm heq)
        rw [hb]
      rw [hlk, ← ih hnd.2]
      have hfilter : (if fv.1 ∉ exclude_fields then
          match fv.2 with
          | some v => [Op.mk "add" ("/fields/" ++ fv.1) v]
          | none => ([] : List Op)
        else []).filter (fun op => op.path == "/fields/System.Description") = [] := by
        by_cases hex : fv.1 ∈ exclude_fields
        · simp [hex]
        · rcases hv : fv.2 with _ | v
          · simp [hex, hv]
          · have hne : ¬("/fields/" ++ fv.1 = "/fields/System.Description") := by
              intro hcontra
              exact heq (string_append_cancel_left (p := "/fields/") (hcontra.trans (by decide)))
            simp [hex, hv, hne]
      rw [hfilter, List.nil_append]

/-- C10: `System.Description` is not excluded, so a present non-null
source description is copied verbatim by the generic loop and then a
second, provenance-prefixed description operation is appended; the last
description operation always carries the migration notice followed by
the original description, and the notice alone when the source
description is absent or null. -/
theorem create_work_item_duplicates_description (fields : Fields)
    (source_org source_project target_project : String)
    (hnd : (fields.map Prod.fst).Nodup) :
    (∀ d, fields.lookup "System.Description" = some (some d) →
      (create_work_item_ops fields source_org source_project target_project).filter
          (fun op => op.path == "/fields/System.Description") =
        [Op.mk "add" "/fields/System.Description" d,
         Op.mk "add" "/fields/System.Description"
           (migration_notice source_org source_project ++ d)]) ∧
    ((fields.lookup "System.Description" = none ∨
        fields.lookup "System.Description" = some none) →
      (create_work_item_ops fields source_org source_project target_project).filter
          (fun op => op.path == "/fields/System.Description") =
        [Op.mk "add" "/fields/System.Description"
          (migration_notice source_org source_project)]) := by
  have htail : ∀ v : String,
      ([Op.mk "add" "/fields/System.Description" v,
        Op.mk "add" "/fields/System.AreaPath" target_project,
        Op.mk "add" "/fields/System.IterationPath" target_project].filter
          (fun op => op.path == "/fields/System.Description")) =
        [Op.mk "add" "/fields/System.Description" v] := by
    intro v
    simp [List.filter]
  constructor
  · intro d hd
    have hloop := fieldLoopOps_desc_filter fields hnd
    rw [hd] at hloop
    have hget : dictGet fields "System.Description" (some "") = some d := by
      simp [dictGet, hd]
    simp only [create_work_item_ops, List.filter_append, hloop, hget, orEmpty, htail]
    rfl
  · intro hd
    have hloop := fieldLoopOps_desc_filter fields hnd
    have hget : orEmpty (dictGet fields "System.Description" (some "")) = "" := by
      rcases hd with hd | hd <;> simp [dictGet, hd, orEmpty]
    rcases hd with hd | hd <;>
    · rw [hd] at hloop
      simp only [create_work_item_ops, List.filter_append, hloop, hget, htail,
        String.append_empty, List.nil_append]

/-- Witness for C10 at a concrete work item. -/
theorem create_work_item_duplicates_description_witness :
    (create_work_item_ops [("System.Title", some "T"), ("System.Description", some "D")]
        "srcorg" "srcproj" "tgtproj").filter
        (fun op => op.path == "/fields/System.Description") =
      [Op.mk "add" "/fields/System.Description" "D",
       Op.mk "add" "/fields/System.Description"
         (migration_notice "srcorg" "srcproj" ++ "D")] :=
  (create_work_item_duplicates_description
      [("System.Title", some "T"), ("System.Description", some "D")]
      "srcorg" "srcproj" "tgtproj" (by decide)).1 "D" (by decide)

/-! ## C2 and C8: repository sync -/

/-- The loop body of `migrate_repos` leaves `target_repo_map` unchanged. -/
theorem migrate_repos_step_fst (createResult : String → Option Repo)
    (st : RepoMap × List RepoEvent) (src : Repo) :
    (migrate_repos_step createResult st src).1 = st.1 := by
  unfold migrate_repos_step
  split
  · rfl
  · split <;> rfl

/-- The loop body of `migrate_repos`, written as a pair with an
unchanged first component. -/
theorem migrate_repos_step_pair (createResult : String → Option Repo)
    (st : RepoMap × List RepoEvent) (src : Repo) :
    migrate_repos_step createResult st src =
      (st.1, (migrate_repos_step createResult st src).2) := by
  have h1 := migrate_repos_step_fst createResult st src
  rw [← h1]

/-- The fold of `migrate_repos` leaves `target_repo_map` unchanged. -/
theorem migrate_repos_foldl_fst (createResult : String → Option Repo) (l : List Repo)
    (m : RepoMap) (evs : List RepoEvent) :
    (l.foldl (migrate_repos_step createResult) (m, evs)).1 = m := by
  induction l generalizing evs with
  | nil => rfl
  | cons src l ih =>
    rw [List.foldl_cons, migrate_repos_step_pair]
    exact ih _

/-- Events already in the trace stay in the trace after one loop step. -/
theorem migrate_repos_step_mono {e : RepoEvent} (createResult : String → Option Repo)
    (st : RepoMap × List RepoEvent) (src : Repo) (h : e ∈ st.2) :
    e ∈ (migrate_repos_step createResult st src).2 := by
  unfold migrate_repos_step
  split
  · simp [h]
  · split <;> simp [h]

/-- Events already in the trace stay in the trace across the fold. -/
theorem migrate_repos_foldl_mono {e : RepoEvent} (createResult : String → Option Repo)
    (l : List Repo) (m : RepoMap) (evs : List RepoEvent) (h : e ∈ evs) :
    e ∈ (l.foldl (migrate_repos_step createResult) (m, evs)).2 := by
  induction l generalizing evs with
  | nil => exact h
  | cons src l ih =>
    rw [List.foldl_cons, migrate_repos_step_pair]
    exact ih _ (migrate_repos_step_mono createResult (m, evs) src h)

/-- A create request produced by one loop step is for a name the map
does not contain. -/
theorem migrate_repos_step_createReq {n : String} (createResult : String → Option Repo)
    (st : RepoMap × List RepoEvent) (src : Repo)
    (h : RepoEvent.createRepoReq n ∈ (migrate_repos_step createResult st src).2) :
    RepoEvent.createRepoReq n ∈ st.2 ∨ (n = src.name ∧ st.1.lookup src.name = none) := by
  rcases heq : st.1.lookup src.name with _ | tgt
  · rcases hc : createResult src.name with _ | tgt
    · simp only [migrate_repos_step, heq, hc] at h
      rcases List.mem_append.mp h with h' | h'
      · exact Or.inl h'
      · simp only [List.mem_singleton, RepoEvent.createRepoReq.injEq] at h'
        exact Or.inr ⟨h', rfl⟩
    · simp only [migrate_repos_step, heq, hc] at h
      rcases List.mem_append.mp h with h' | h'
      · exact Or.inl h'
      · simp only [List.mem_cons, List.mem_singleton, List.not_mem_nil, or_false,
          RepoEvent.createRepoReq.injEq, reduceCtorEq] at h'
        exact Or.inr ⟨h', rfl⟩
  · simp only [migrate_repos_step, heq] at h
    rcases List.mem_append.mp h with h' | h'
    · exact Or.inl h'
    · simp at h'

/-- Across the fold: no create request is emitted for a name the map
already contains. -/
theorem migrate_repos_foldl_createReq {n : String} (createResult : String → Option Repo)
    (l : List Repo) (m : RepoMap) (evs : List RepoEvent)
    (hm : ((m.lookup n)).isSome)
    (h : RepoEvent.createRepoReq n ∈ (l.foldl (migrate_repos_step createResult) (m, evs)).2) :
    RepoEvent.createRepoReq n ∈ evs := by
  induction l generalizing evs with
  | nil => exact h
  | cons src l ih =>
    rw [List.foldl_cons, migrate_repos_step_pair] at h
    have h2 := ih _ h
    rcases migrate_repos_step_createReq createResult (m, evs) src h2 with h3 | ⟨hn, hnone⟩
    · exact h3
    · have hnone' : m.lookup src.name = none := hnone
      rw [← hn] at hnone'
      rw [hnone'] at hm
      simp at hm

/-- C2: repository sync is idempotent on existence — for a source
repository whose name already appears among the listed target
repositories, `migrate_repos` issues no create request for that name. -/
theorem migrate_repos_no_duplicate_create (sourceRepos targetRepos : List Repo)
    (createResult : String → Option Repo) (name : String)
    (h : ∃ t ∈ targetRepos, t.name = name) :
    RepoEvent.createRepoReq name ∉ (migrate_repos sourceRepos targetRepos createResult).2 := by
  intro hmem
  obtain ⟨t, ht, hname⟩ := h
  have hm : ((buildRepoMap targetRepos).lookup name).isSome := by
    rw [List.lookup_isSome_iff]
    refine ⟨(t.name, t), ?_, by simp [hname]⟩
    simp only [buildRepoMap, List.mem_reverse, List.mem_map]
    exact ⟨t, ht, rfl⟩
  have h2 := migrate_repos_foldl_createReq createResult sourceRepos
    (buildRepoMap targetRepos) [] hm hmem
  simp at h2

/-- Witness for C2 at a concrete repository listing. -/
theorem migrate_repos_no_duplicate_create_witness :
    (∃ t ∈ [Repo.mk "alpha" "t1" "tu"], t.name = "alpha") ∧
    RepoEvent.createRepoReq "alpha" ∉
      (migrate_repos [Repo.mk "alpha" "s1" "su"] [Repo.mk "alpha" "t1" "tu"]
        (fun _ => none)).2 :=
  ⟨by decide, migrate_repos_no_duplicate_create _ _ _ _ (by decide)⟩

/-- Counterexample to C8: one source repository `newrepo`, an empty
target; creation succeeds (the created repository is even used as the
clone target, witnessed by the clone call carrying its id), yet the
local name ↦ repository map still has no entry for `newrepo`
afterwards — the code never inserts the created repository. -/
theorem migrate_repos_map_not_updated :
    ((migrate_repos [Repo.mk "newrepo" "srcid" "srcurl"] []
        (fun _ => some (Repo.mk "newrepo" "tgtid" "tgturl"))).1).lookup "newrepo" = none ∧
    (migrate_repos [Repo.mk "newrepo" "srcid" "srcurl"] []
        (fun _ => some (Repo.mk "newrepo" "tgtid" "tgturl"))).2 =
      [RepoEvent.createRepoReq "newrepo", RepoEvent.cloneRepoCall "srcid" "tgtid"] := by
  decide

/-- Across the fold: a source repository missing from the map whose
creation succeeds gets a clone call onto the created repository. -/
theorem migrate_repos_foldl_clone {createResult : String → Option Repo} {src tgt : Repo}
    (l : List Repo) (m : RepoMap) (evs : List RepoEvent) (hsrc : src ∈ l)
    (hmiss : m.lookup src.name = none) (hc : createResult src.name = some tgt) :
    RepoEvent.cloneRepoCall src.id tgt.id ∈
      (l.foldl (migrate_repos_step createResult) (m, evs)).2 := by
  induction l generalizing evs with
  | nil => cases hsrc
  | cons hd tl ih =>
    rw [List.foldl_cons, migrate_repos_step_pair]
    rcases List.mem_cons.mp hsrc with rfl | hsrc'
    · apply migrate_repos_foldl_mono
      simp [migrate_repos_step, hmiss, hc]
    · exact ih _ hsrc'

/-- C8 amended: after a successful creation the new repository is used
directly as the clone target of the history transfer, but it is not
registered in the local name ↦ repository map — the map stays equal to
the one built from the initial target listing, so a later lookup of the
new name within the run does not see it. -/
theorem migrate_repos_created_repo_used_not_registered
    (sourceRepos targetRepos : List Repo) (createResult : String → Option Repo)
    (src : Repo) (tgt : Repo) (hsrc : src ∈ sourceRepos)
    (hmiss : (buildRepoMap targetRepos).lookup src.name = none)
    (hc : createResult src.name = some tgt) :
    (migrate_repos sourceRepos targetRepos createResult).1 = buildRepoMap targetRepos ∧
    RepoEvent.cloneRepoCall src.id tgt.id ∈
      (migrate_repos sourceRepos targetRepos createResult).2 := by
  exact ⟨migrate_repos_foldl_fst createResult sourceRepos (buildRepoMap targetRepos) [],
    migrate_repos_foldl_clone sourceRepos (buildRepoMap targetRepos) [] hsrc hmiss hc⟩

/-- Witness for the amended C8 at a concrete repository listing. -/
theorem migrate_repos_created_repo_used_not_registered_witness :
    (migrate_repos [Repo.mk "beta" "s9" "su"] [] (fun _ => some (Repo.mk "beta" "t9" "tu"))).1 =
      buildRepoMap [] ∧
    RepoEvent.cloneRepoCall "s9" "t9" ∈
      (migrate_repos [Repo.mk "beta" "s9" "su"] []
        (fun _ => some (Repo.mk "beta" "t9" "tu"))).2 :=
  migrate_repos_created_repo_used_not_registered
    [Repo.mk "beta" "s9" "su"] [] (fun _ => some (Repo.mk "beta" "t9" "tu"))
    (Repo.mk "beta" "s9" "su") (Repo.mk "beta" "t9" "tu") (by decide) (by decide) rfl

/-! ## C1 and C6: pull request sync -/

/-- Every pull-request-creation event names the target repository id the
per-PR body was invoked with. -/
theorem process_pr_createPR_id {source_org source_project targetRepoId : String}
    {getDetails : Nat → Option PRDetails} {createPR : String → NewPRData → Option Nat}
    {prId : Nat} {e : PREvent}
    (he : e ∈ process_pr source_org source_project targetRepoId getDetails createPR prId)
    {rid : String} {payload : NewPRData} (heq : e = PREvent.createPRReq rid payload) :
    rid = targetRepoId := by
  subst heq
  rcases hd : getDetails prId with _ | details
  · simp only [process_pr, hd, List.not_mem_nil] at he
  · rcases hc : createPR targetRepoId (create_pull_request_payload source_org source_project details)
      with _ | newId
    · simp only [process_pr, hd, hc, List.mem_singleton, PREvent.createPRReq.injEq] at he
      exact he.1
    · simp only [process_pr, hd, hc, List.mem_cons, List.mem_append, List.mem_map,
        PREvent.createPRReq.injEq] at he
      rcases he with ⟨h1, _⟩ | h2
      · exact h1
      · rcases h2 with ⟨t, _, ht⟩ | h3
        · cases ht
        · rcases hst : decide ¬details.status = "active" with _ | _ <;>
            revert h3 <;> split <;> simp

/-- Counterexample to C1: one source repository `repo1` that has a pull
request ready to be fetched and created, an empty target repository
list; `migrate_pull_requests` emits only a skip event — it neither
creates the missing target repository nor replays the pull request. -/
theorem migrate_pull_requests_missing_repo_skipped :
    migrate_pull_requests "srcorg" "srcproj" [Repo.mk "repo1" "sid1" "surl"] []
        (fun _ => [1])
        (fun _ _ => some (PRDetails.mk "refs/heads/f" "refs/heads/main" "T" (some "d")
          "completed" []))
        (fun _ _ => some 42) =
      [PREvent.skipRepo "repo1"] := by
  decide

/-- C1 amended: a source repository whose name has no matching target
repository is skipped by the pull request syncer — a skip event is
emitted for it, no repository is created, and every pull-request
creation in the trace targets a repository that was already present in
the target listing.  The syncer therefore requires a prior repository
sync. -/
theorem migrate_pull_requests_skips_missing_repos
    (source_org source_project : String) (sourceRepos targetRepos : List Repo)
    (listPRs : String → List Nat) (getDetails : String → Nat → Option PRDetails)
    (createPR : String → NewPRData → Option Nat)
    (src : Repo) (hsrc : src ∈ sourceRepos)
    (hmiss : (buildRepoMap targetRepos).lookup src.name = none) :
    PREvent.skipRepo src.name ∈
      migrate_pull_requests source_org source_project sourceRepos targetRepos
        listPRs getDetails createPR ∧
    ∀ e ∈ migrate_pull_requests source_org source_project sourceRepos targetRepos
        listPRs getDetails createPR,
      ∀ rid payload, e = PREvent.createPRReq rid payload →
        ∃ t ∈ targetRepos, t.id = rid := by
  constructor
  · rw [migrate_pull_requests, List.mem_flatMap]
    refine ⟨src, hsrc, ?_⟩
    simp only [hmiss]
    simp
  · intro e he rid payload heq
    rw [migrate_pull_requests, List.mem_flatMap] at he
    obtain ⟨a, _, hea⟩ := he
    rcases hl : (buildRepoMap targetRepos).lookup a.name with _ | tgt
    · rw [hl] at hea
      simp only [List.mem_singleton] at hea
      rw [hea] at heq
      cases heq
    · rw [hl] at hea
      rw [List.mem_flatMap] at hea
      obtain ⟨prId, _, hpr⟩ := hea
      have hid := process_pr_createPR_id hpr heq
      have hmem : (a.name, tgt) ∈ buildRepoMap targetRepos := by
        rcases List.lookup_eq_some_iff.mp hl with ⟨l₁, l₂, hsplit, _⟩
        rw [hsplit]
        simp
      simp only [buildRepoMap, List.mem_reverse, List.mem_map] at hmem
      obtain ⟨t, ht, hmk⟩ := hmem
      refine ⟨t, ht, ?_⟩
      have : t = tgt := congrArg Prod.snd hmk
      rw [this, hid]

/-- Witness for the amended C1 at a concrete repository listing. -/
theorem migrate_pull_requests_skips_missing_repos_witness :
    PREvent.skipRepo "repoX" ∈
      migrate_pull_requests "o" "p" [Repo.mk "repoX" "sX" "su"] [Repo.mk "other" "tO" "tu"]
        (fun _ => []) (fun _ _ => none) (fun _ _ => none) :=
  (migrate_pull_requests_skips_missing_repos "o" "p" [Repo.mk "repoX" "sX" "su"]
    [Repo.mk "other" "tO" "tu"] (fun _ => []) (fun _ _ => none) (fun _ _ => none)
    (Repo.mk "repoX" "sX" "su") (by decide) (by decide)).1

/-- C6: when a source pull request's details are fetched and its
creation in the target succeeds, a status update carrying the source
status is issued exactly when that status is not `"active"`; for an
`"active"` source pull request no status update is issued at all. -/
theorem process_pr_status_reconciliation
    (source_org source_project targetRepoId : String)
    (getDetails : Nat → Option PRDetails) (createPR : String → NewPRData → Option Nat)
    (prId : Nat) (details : PRDetails) (newId : Nat)
    (hd : getDetails prId = some details)
    (hc : createPR targetRepoId (create_pull_request_payload source_org source_project details) =
      some newId) :
    (details.status ≠ "active" →
      PREvent.updateStatusReq targetRepoId newId details.status ∈
        process_pr source_org source_project targetRepoId getDetails createPR prId) ∧
    (details.status = "active" →
      ∀ rid i s, PREvent.updateStatusReq rid i s ∉
        process_pr source_org source_project targetRepoId getDetails createPR prId) := by
  constructor
  · intro hne
    simp only [process_pr, hd, hc]
    simp [hne]
  · intro hact rid i s hmem
    simp only [process_pr, hd, hc] at hmem
    simp [hact] at hmem

/-- Witness for C6 at a concrete completed pull request. -/
theorem process_pr_status_reconciliation_witness :
    PREvent.updateStatusReq "t1" 7 "completed" ∈
      process_pr "o" "p" "t1"
        (fun _ => some (PRDetails.mk "refs/heads/f" "refs/heads/main" "T" none "completed" []))
        (fun _ _ => some 7) 1 :=
  (process_pr_status_reconciliation "o" "p" "t1"
    (fun _ => some (PRDetails.mk "refs/heads/f" "refs/heads/main" "T" none "completed" []))
    (fun _ _ => some 7) 1
    (PRDetails.mk "refs/heads/f" "refs/heads/main" "T" none "completed" []) 7 rfl rfl).1
    (by decide)

/-! ## C3 and C4: relation rewriting -/

/-- When every work item URL among the relations parses, the relation
translation completes and equals the per-relation resolution. -/
theorem update_ops_eq_filterMap (m : WorkItemMap) (target_org : String)
    (relations : List Relation)
    (hparse : ∀ r ∈ relations, ∀ u, r.url = some u → pyContains "/workitems/" u = true →
      (pyInt (lastSegment u)).isSome) :
    update_work_item_relations_ops m target_org relations =
      some (relations.filterMap (resolvedOp m target_org)) := by
  induction relations with
  | nil => rfl
  | cons r rs ih =>
    have ih' := ih fun r' hr' => hparse r' (List.mem_cons_of_mem _ hr')
    rcases hu : r.url with _ | u
    · simp only [update_work_item_relations_ops, List.filterMap_cons, resolvedOp, hu, ih']
    · rcases hcont : pyContains "/workitems/" u with _ | _
      · simp only [update_work_item_relations_ops, List.filterMap_cons, resolvedOp, hu, hcont,
          Bool.false_eq_true, if_false, ih']
      · have hsome := hparse r (List.mem_cons_self r rs) u hu hcont
        rcases hi : pyInt (lastSegment u) with _ | sid
        · rw [hi] at hsome
          simp at hsome
        · rcases hlk : m.lookup sid with _ | tid
          · simp only [update_work_item_relations_ops, List.filterMap_cons, resolvedOp, hu,
              hcont, if_true, hi, hlk, ih']
          · simp only [update_work_item_relations_ops, List.filterMap_cons, resolvedOp, hu,
              hcont, if_true, hi, hlk, ih', Option.map_some']

/-- Characterisation of a successfully resolved relation. -/
theorem resolvedOp_eq_some {m : WorkItemMap} {target_org : String} {r : Relation} {op : RelOp}
    (h : resolvedOp m target_org r = some op) :
    ∃ u sid tid, r.url = some u ∧ pyContains "/workitems/" u = true ∧
      pyInt (lastSegment u) = some sid ∧ m.lookup sid = some tid ∧
      op = RelOp.mk "add" "/relations/-" (RelValue.mk r.rel (target_rel_url target_org tid)) := by
  rcases hu : r.url with _ | u
  · simp only [resolvedOp, hu] at h
    cases h
  · rcases hcont : pyContains "/workitems/" u with _ | _
    · simp only [resolvedOp, hu, hcont, Bool.false_eq_true, if_false] at h
      cases h
    · rcases hi : pyInt (lastSegment u) with _ | sid
      · simp only [resolvedOp, hu, hcont, if_true, hi] at h
        cases h
      · rcases hlk : m.lookup sid with _ | tid
        · simp only [resolvedOp, hu, hcont, if_true, hi, hlk] at h
          cases h
        · simp only [resolvedOp, hu, hcont, if_true, hi, hlk, Option.some_inj] at h
          exact ⟨u, sid, tid, rfl, hcont, hi, hlk, h.symm⟩

/-- A work item created in phase 1 is found in the Identity Map. -/
theorem phase1_map_lookup {items : List WorkItem} {createResult : WorkItem → Option Nat}
    {wi : WorkItem} {tid : Nat} (hnd : (items.map WorkItem.id).Nodup)
    (hwi : wi ∈ items) (hc : createResult wi = some tid) :
    (phase1_map items createResult).lookup wi.id = some tid := by
  induction items with
  | nil => cases hwi
  | cons hd tl ih =>
    simp only [List.map_cons, List.nodup_cons] at hnd
    rcases List.mem_cons.mp hwi with rfl | hwi'
    · simp only [phase1_map, List.filterMap_cons, hc, Option.map_some']
      exact List.lookup_cons_self
    · have hne : wi.id ≠ hd.id := by
        intro hid
        exact hnd.1 (hid ▸ List.mem_map_of_mem WorkItem.id hwi')
      rcases hch : createResult hd with _ | tid'
      · simp only [phase1_map, List.filterMap_cons, hch, Option.map_none']
        exact ih hnd.2 hwi'
      · simp only [phase1_map, List.filterMap_cons, hch, Option.map_some']
        rw [List.lookup_cons]
        rw [beq_eq_false_iff_ne.mpr hne]
        exact ih hnd.2 hwi'

/-- C3: two source work items both created in phase 1, the first
carrying a relation whose URL references the second's source id: the
patch built for the first item's target counterpart contains a relation
of the same kind whose URL references the second's target counterpart,
and that patch is the one phase 2 issues for the first item's target
id. -/
theorem phase2_rewrites_relations_through_identity_map
    (items : List WorkItem) (createResult : WorkItem → Option Nat)
    (relationsOf : Nat → List Relation) (target_org : String)
    (A B : WorkItem) (ta tb : Nat) (r : Relation) (u : String)
    (hnd : (items.map WorkItem.id).Nodup)
    (hA : A ∈ items) (hB : B ∈ items)
    (hca : createResult A = some ta) (hcb : createResult B = some tb)
    (hr : r ∈ relationsOf A.id) (hu : r.url = some u)
    (hcont : pyContains "/workitems/" u = true)
    (hid : pyInt (lastSegment u) = some B.id)
    (hparse : ∀ r' ∈ relationsOf A.id, ∀ u', r'.url = some u' →
      pyContains "/workitems/" u' = true → (pyInt (lastSegment u')).isSome) :
    ∃ ops, update_work_item_relations_ops (phase1_map items createResult) target_org
        (relationsOf A.id) = some ops ∧
      RelOp.mk "add" "/relations/-" (RelValue.mk r.rel (target_rel_url target_org tb)) ∈ ops ∧
      (ta, some ops) ∈ (migrate_work_items items createResult relationsOf target_org).2 := by
  have hmA : (phase1_map items createResult).lookup A.id = some ta :=
    phase1_map_lookup hnd hA hca
  have hmB : (phase1_map items createResult).lookup B.id = some tb :=
    phase1_map_lookup hnd hB hcb
  have heq := update_ops_eq_filterMap (phase1_map items createResult) target_org
    (relationsOf A.id) hparse
  refine ⟨_, heq, ?_, ?_⟩
  · rw [List.mem_filterMap]
    refine ⟨r, hr, ?_⟩
    simp only [resolvedOp, hu, hcont, if_true, hid, hmB]
  · simp only [migrate_work_items, phase2_patches]
    rw [List.mem_filterMap]
    refine ⟨A, hA, ?_⟩
    rw [hmA, heq]

/-- Witness for C3 at a concrete pair of linked work items. -/
theorem phase2_rewrites_relations_witness :
    ∃ ops, update_work_item_relations_ops
        (phase1_map [WorkItem.mk 1 [], WorkItem.mk 2 []] (fun wi => some (wi.id + 100))) "torg"
        ((fun i => if i = 1 then
            [Relation.mk "System.LinkTypes.Related"
              (some "https://dev.azure.com/so/_apis/wit/workitems/2")]
          else []) 1) = some ops ∧
      RelOp.mk "add" "/relations/-"
        (RelValue.mk "System.LinkTypes.Related" (target_rel_url "torg" 102)) ∈ ops ∧
      (101, some ops) ∈ (migrate_work_items [WorkItem.mk 1 [], WorkItem.mk 2 []]
        (fun wi => some (wi.id + 100))
        (fun i => if i = 1 then
          [Relation.mk "System.LinkTypes.Related"
            (some "https://dev.azure.com/so/_apis/wit/workitems/2")]
        else []) "torg").2 :=
  phase2_rewrites_relations_through_identity_map
    [WorkItem.mk 1 [], WorkItem.mk 2 []] (fun wi => some (wi.id + 100))
    (fun i => if i = 1 then
      [Relation.mk "System.LinkTypes.Related"
        (some "https://dev.azure.com/so/_apis/wit/workitems/2")]
    else []) "torg"
    (WorkItem.mk 1 []) (WorkItem.mk 2 []) 101 102
    (Relation.mk "System.LinkTypes.Related"
      (some "https://dev.azure.com/so/_apis/wit/workitems/2"))
    "https://dev.azure.com/so/_apis/wit/workitems/2"
    (by decide) (by decide) (by decide) rfl rfl (by decide) rfl (by decide) (by decide)
    (by decide)

/-- C4: a relation whose referenced source id is absent from the
Identity Map is omitted from the patch — it resolves to nothing, the
translation of the whole relation list still completes, and every
operation that is emitted comes from a relation that resolved through
the Identity Map to a target-side URL. -/
theorem unmapped_relations_silently_dropped
    (m : WorkItemMap) (target_org : String) (relations : List Relation)
    (r : Relation) (u : String) (sid : Nat)
    (_hr : r ∈ relations) (hu : r.url = some u)
    (hcont : pyContains "/workitems/" u = true)
    (hid : pyInt (lastSegment u) = some sid)
    (hunmapped : m.lookup sid = none)
    (hparse : ∀ r' ∈ relations, ∀ u', r'.url = some u' →
      pyContains "/workitems/" u' = true → (pyInt (lastSegment u')).isSome) :
    ∃ ops, update_work_item_relations_ops m target_org relations = some ops ∧
      resolvedOp m target_org r = none ∧
      ops = relations.filterMap (resolvedOp m target_org) ∧
      ∀ op ∈ ops, ∃ r' ∈ relations, resolvedOp m target_org r' = some op ∧
        ∃ sid' tid', m.lookup sid' = some tid' ∧
          op.value.url = target_rel_url target_org tid' := by
  have heq := update_ops_eq_filterMap m target_org relations hparse
  refine ⟨_, heq, ?_, rfl, ?_⟩
  · simp only [resolvedOp, hu, hcont, if_true, hid, hunmapped]
  · intro op hop
    rw [List.mem_filterMap] at hop
    obtain ⟨r', hr', hres⟩ := hop
    obtain ⟨u', sid', tid', _, _, _, hlk, hop_eq⟩ := resolvedOp_eq_some hres
    exact ⟨r', hr', hres, sid', tid', hlk, by rw [hop_eq]⟩

/-- Witness for C4 at a concrete relation list with one mapped and one
unmapped link. -/
theorem unmapped_relations_silently_dropped_witness :
    ∃ ops, update_work_item_relations_ops [(1, 101)] "torg"
        [Relation.mk "Child" (some "https://dev.azure.com/so/_apis/wit/workitems/1"),
         Relation.mk "Parent" (some "https://dev.azure.com/so/_apis/wit/workitems/5")] =
          some ops ∧
      resolvedOp [(1, 101)] "torg"
        (Relation.mk "Parent" (some "https://dev.azure.com/so/_apis/wit/workitems/5")) = none ∧
      ops = [Relation.mk "Child" (some "https://dev.azure.com/so/_apis/wit/workitems/1"),
             Relation.mk "Parent"
               (some "https://dev.azure.com/so/_apis/wit/workitems/5")].filterMap
        (resolvedOp [(1, 101)] "torg") ∧
      ∀ op ∈ ops, ∃ r' ∈ [Relation.mk "Child"
            (some "https://dev.azure.com/so/_apis/wit/workitems/1"),
          Relation.mk "Parent" (some "https://dev.azure.com/so/_apis/wit/workitems/5")],
        resolvedOp [(1, 101)] "torg" r' = some op ∧
        ∃ sid' tid', List.lookup sid' [(1, 101)] = some tid' ∧
          op.value.url = target_rel_url "torg" tid' :=
  unmapped_relations_silently_dropped [(1, 101)] "torg"
    [Relation.mk "Child" (some "https://dev.azure.com/so/_apis/wit/workitems/1"),
     Relation.mk "Parent" (some "https://dev.azure.com/so/_apis/wit/workitems/5")]
    (Relation.mk "Parent" (some "https://dev.azure.com/so/_apis/wit/workitems/5"))
    "https://dev.azure.com/so/_apis/wit/workitems/5" 5
    (by decide) rfl (by decide) (by decide) (by decide) (by decide)

end AdoMigration
